import Mathlib

/-!
Verification of the ExpenseTracker Balance & Settlement Engine.

The definitions below are a shallow embedding of the Go source:

* `services.SettlementService` (`CalculateUserBalances`,
  `GenerateOptimalSettlements`, `CreateSettlements`,
  `MarkSettlementCompleted`, `ValidateSettlement`,
  `CreateCustomSettlement`), and
* the expense splitter in `controllers/expenses.go`
  (`calculatePercentageSplit`, `calculateCustomSplit`,
  `calculateWeightedSplit`).

Monetary values use `shopspring/decimal`, an exact decimal type: `Add`,
`Sub` and `Mul` are exact, `Div` rounds the true quotient half away from
zero at `DivisionPrecision = 16` decimal places and panics on a zero
divisor.  Every decimal value is an exact rational, so the embedding
models decimals as `ℚ` with an explicit rounding division `decDiv`;
reachable division-by-zero panics are reified as `Option.none`.

The database is modelled as in-memory lists: an event-scoped `Ledger`
(participants, contributions, expenses, expense shares) for the read
side, and a `List Settlement` for the settlements table.
-/

namespace ExpenseTracker

/-! ### Decimal arithmetic model -/

/-- `shopspring/decimal.DivisionPrecision`: quotients are rounded to this
many decimal places. -/
def divisionPrecision : ℕ := 16

/-- Round a rational to the nearest integer, halves away from zero
(the rounding mode of `decimal.DivRound`). -/
def roundHalfAway (x : ℚ) : ℤ :=
  if 0 ≤ x then ⌊x + 1 / 2⌋ else ⌈x - 1 / 2⌉

/-- `a.Div(b)` of `shopspring/decimal`: the true quotient rounded half
away from zero at 16 decimal places.  (The Go function panics when
`b = 0`; callers of `decDiv` in this file only reach it with a nonzero
divisor, the panicking call sites are reified with `Option`.) -/
def decDiv (a b : ℚ) : ℚ :=
  (roundHalfAway (a / b * 10 ^ divisionPrecision) : ℚ) / 10 ^ divisionPrecision

/-- A rational lies on the 16-decimal-place grid, i.e. it is exactly
representable at `DivisionPrecision`. -/
def OnGrid (q : ℚ) : Prop := ∃ n : ℤ, q = (n : ℚ) / 10 ^ divisionPrecision

theorem roundHalfAway_intCast (n : ℤ) : roundHalfAway (n : ℚ) = n := by
  unfold roundHalfAway
  split
  · rw [show ((n : ℚ) + 1 / 2) = (1 : ℚ) / 2 + (n : ℚ) by ring,
      Int.floor_add_int]
    norm_num
  · rw [show ((n : ℚ) - 1 / 2) = -(1 : ℚ) / 2 + (n : ℚ) by ring,
      Int.ceil_add_int]
    norm_num

/-- When the true quotient is exactly representable at 16 decimal
places, `Div` is exact. -/
theorem decDiv_exact {a b : ℚ} (h : OnGrid (a / b)) : decDiv a b = a / b := by
  obtain ⟨n, hn⟩ := h
  have h10 : ((10 : ℚ) ^ divisionPrecision) ≠ 0 := by norm_num
  have hq : a / b * 10 ^ divisionPrecision = (n : ℚ) := by
    rw [hn]; field_simp
  rw [decDiv, hq, roundHalfAway_intCast, ← hn]

/-! ### Data model (models/models.go, restricted to the fields the core
reads; the ledger is scoped to a single event) -/

/-- `models.Expense.Status`: `pending`, `approved` or `rejected`. -/
inductive ExpenseStatus
  | pending
  | approved
  | rejected
deriving DecidableEq, Repr

/-- `status IN ('approved', 'pending')` — the filter used by every
balance query. -/
def ExpenseStatus.counts : ExpenseStatus → Bool
  | .pending => true
  | .approved => true
  | .rejected => false

/-- `models.Contribution` (event-scoped). -/
structure Contribution where
  userID : ℕ
  amount : ℚ
deriving DecidableEq, Repr

/-- `models.Expense` (event-scoped). -/
structure Expense where
  id : ℕ
  submittedBy : ℕ
  amount : ℚ
  status : ExpenseStatus
deriving DecidableEq, Repr

/-- `models.ExpenseShare`. -/
structure ExpenseShare where
  expenseID : ℕ
  userID : ℕ
  amount : ℚ
deriving DecidableEq, Repr

/-- `models.UserBalance` (derived, not persisted). -/
structure UserBalance where
  userID : ℕ
  contributed : ℚ
  spent : ℚ
  netBalance : ℚ
  owesAmount : ℚ
  owedAmount : ℚ
deriving DecidableEq, Repr

/-- The event-scoped read snapshot consumed by the balance calculator:
participations, contributions, expenses and expense shares of one
event. -/
structure Ledger where
  participants : List ℕ
  contributions : List Contribution
  expenses : List Expense
  shares : List ExpenseShare

/-! ### Balance Calculator (`CalculateUserBalances`, part_001) -/

/-- `SELECT COALESCE(SUM(amount), 0) FROM contributions WHERE event_id = ?
AND user_id = ?`. -/
def contributionSum (L : Ledger) (u : ℕ) : ℚ :=
  ((L.contributions.filter (fun c => c.userID == u)).map (·.amount)).sum

/-- `SELECT COALESCE(SUM(amount), 0) FROM expenses WHERE event_id = ? AND
submitted_by = ? AND status IN ('approved', 'pending')`. -/
def expenseSum (L : Ledger) (u : ℕ) : ℚ :=
  ((L.expenses.filter
    (fun e => e.submittedBy == u && e.status.counts)).map (·.amount)).sum

/-- `SELECT COALESCE(SUM(expense_shares.amount), 0) FROM expense_shares
JOIN expenses ON expense_shares.expense_id = expenses.id WHERE
expenses.event_id = ? AND expense_shares.user_id = ? AND expenses.status
IN ('approved', 'pending')` — a SQL join, so each share is counted once
per matching expense row. -/
def shareJoinSum (L : Ledger) (u : ℕ) : ℚ :=
  ((L.shares.filter (fun s => s.userID == u)).map (fun s =>
    ((L.expenses.filter
      (fun e => e.id == s.expenseID && e.status.counts)).map
        (fun _ => s.amount)).sum)).sum

/-- The loop body of `CalculateUserBalances` for one participant. -/
def balanceFor (L : Ledger) (u : ℕ) : UserBalance :=
  let totalContributions := contributionSum L u
  let totalExpenses := expenseSum L u
  let totalEventExpenses := shareJoinSum L u
  let netBalance := totalContributions + totalExpenses - totalEventExpenses
  { userID := u
    contributed := totalContributions
    spent := totalExpenses
    netBalance := netBalance
    owesAmount := if netBalance < 0 then |netBalance| else 0
    owedAmount := if 0 < netBalance then netBalance else 0 }

/-- `CalculateUserBalances`: one `UserBalance` per participant, in
participation order. -/
def CalculateUserBalances (L : Ledger) : List UserBalance :=
  L.participants.map (balanceFor L)

/-! ### Settlement Reducer (`GenerateOptimalSettlements`, part_001) -/

/-- A settlement draft produced by the reducer: event id, currency and
status (`pending`) are filled in uniformly by the caller and are
omitted. -/
structure SettlementDraft where
  fromUserID : ℕ
  toUserID : ℕ
  amount : ℚ
deriving DecidableEq, Repr

/-- The greedy loop of `GenerateOptimalSettlements`: while both lists
are non-empty, transfer `min(debtor.OwesAmount, creditor.OwedAmount)`
from the head debtor to the head creditor, and drop a party whose
remaining amount is exactly zero. -/
def greedyLoop : List UserBalance → List UserBalance → List SettlementDraft
  | [], _ => []
  | _ :: _, [] => []
  | d :: ds, c :: cs =>
    ⟨d.userID, c.userID, min d.owesAmount c.owedAmount⟩ ::
      greedyLoop
        (if d.owesAmount - min d.owesAmount c.owedAmount = 0 then ds
         else { d with owesAmount := d.owesAmount - min d.owesAmount c.owedAmount } :: ds)
        (if c.owedAmount - min d.owesAmount c.owedAmount = 0 then cs
         else { c with owedAmount := c.owedAmount - min d.owesAmount c.owedAmount } :: cs)
termination_by ds cs => ds.length + cs.length
decreasing_by
  have hAB : d.owesAmount - min d.owesAmount c.owedAmount = 0 ∨
      c.owedAmount - min d.owesAmount c.owedAmount = 0 := by
    rcases min_cases d.owesAmount c.owedAmount with ⟨h, -⟩ | ⟨h, -⟩
    · exact Or.inl (by rw [h]; ring)
    · exact Or.inr (by rw [h]; ring)
  split
  · split <;> simp only [List.length_cons] <;> omega
  · next hA =>
      split
      · simp only [List.length_cons]; omega
      · next hB =>
          rcases hAB with h | h
          · exact absurd h hA
          · exact absurd h hB

/-- `sort.Slice(debtors, ...)` — descending by `OwesAmount` (modelled
with a stable insertion sort; no theorem below depends on how ties are
ordered). -/
def sortByOwesDesc (l : List UserBalance) : List UserBalance :=
  l.insertionSort (fun a b => b.owesAmount < a.owesAmount)

/-- `sort.Slice(creditors, ...)` — descending by `OwedAmount`. -/
def sortByOwedDesc (l : List UserBalance) : List UserBalance :=
  l.insertionSort (fun a b => b.owedAmount < a.owedAmount)

/-- The pure part of `GenerateOptimalSettlements`: partition the
balances into debtors (`NetBalance < 0`) and creditors
(`NetBalance > 0`), sort both descending, and run the greedy loop. -/
def generateFromBalances (balances : List UserBalance) : List SettlementDraft :=
  let debtors := balances.filter (fun b => b.netBalance < 0)
  let creditors := balances.filter (fun b => 0 < b.netBalance)
  greedyLoop (sortByOwesDesc debtors) (sortByOwedDesc creditors)

/-- `GenerateOptimalSettlements`: balances of the event's ledger reduced
to settlement drafts. -/
def GenerateOptimalSettlements (L : Ledger) : List SettlementDraft :=
  generateFromBalances (CalculateUserBalances L)

/-! ### Expense Splitter (controllers/expenses.go) -/

/-- A strategy-specific participant field as received in the request:
absent (empty string), present but unparseable, or a parsed decimal. -/
inductive FieldVal
  | missing
  | invalid
  | val (q : ℚ)
deriving DecidableEq, Repr

/-- `controllers.ExpenseParticipant`, with the `amount`, `percentage`
and `weight` strings abstracted by their `decimal.NewFromString` parse
result. -/
structure ExpenseParticipant where
  userID : ℕ
  amount : FieldVal := .missing
  percentage : FieldVal := .missing
  weight : FieldVal := .missing
deriving DecidableEq, Repr

/-- The second-pass re-parse (`decimal.NewFromString` with the error
ignored): a zero `Decimal` when parsing fails, which post-validation is
unreachable. -/
def FieldVal.parsedOr0 : FieldVal → ℚ
  | .val q => q
  | _ => 0

/-- The validation loop shared by the percentage, custom and weighted
strategies: fail on the first absent field or unparseable field,
otherwise return the sum of all parsed values. -/
def validateTotal (field : ExpenseParticipant → FieldVal)
    (requiredMsg invalidMsg : String) :
    List ExpenseParticipant → Except String ℚ
  | [] => .ok 0
  | p :: ps =>
    match field p with
    | .missing => .error requiredMsg
    | .invalid => .error invalidMsg
    | .val q =>
      match validateTotal field requiredMsg invalidMsg ps with
      | .error e => .error e
      | .ok t => .ok (q + t)

/-- A share produced by the splitter (`models.ExpenseShare` before the
parent expense id is attached). -/
structure SplitShare where
  userID : ℕ
  amount : ℚ
  percentage : ℚ
deriving DecidableEq, Repr

/-- `calculatePercentageSplit`: validate all percentages, require their
total to be exactly 100, then set each share's amount to
`expense.Amount.Mul(percentage).Div(100)`. -/
def calculatePercentageSplit (expenseAmount : ℚ)
    (ps : List ExpenseParticipant) : Except String (List SplitShare) :=
  match validateTotal (·.percentage) "percentage required" "invalid percentage" ps with
  | .error e => .error e
  | .ok totalPercentage =>
    if totalPercentage ≠ 100 then .error "percentages must add up to 100"
    else .ok (ps.map fun p =>
      { userID := p.userID
        amount := decDiv (expenseAmount * p.percentage.parsedOr0) 100
        percentage := p.percentage.parsedOr0 })

/-- `calculateCustomSplit`: validate all explicit amounts, require their
total to be exactly the expense amount, then back-compute each share's
percentage as `amount.Div(expense.Amount).Mul(100)`.  When the expense
amount is zero and the participant list is non-empty the first `Div`
call panics; the panic is reified as `none`. -/
def calculateCustomSplit (expenseAmount : ℚ)
    (ps : List ExpenseParticipant) : Option (Except String (List SplitShare)) :=
  match validateTotal (·.amount) "amount required" "invalid amount" ps with
  | .error e => some (.error e)
  | .ok totalAmount =>
    if totalAmount ≠ expenseAmount then
      some (.error "custom amounts must add up to expense total")
    else if ps ≠ [] ∧ expenseAmount = 0 then none
    else some (.ok (ps.map fun p =>
      { userID := p.userID
        amount := p.amount.parsedOr0
        percentage := decDiv p.amount.parsedOr0 expenseAmount * 100 }))

/-- `calculateWeightedSplit`: validate all weights (no check on their
values), then set `percentage := weight.Div(totalWeight).Mul(100)` and
`amount := expense.Amount.Mul(weight).Div(totalWeight)`.  When the
weights sum to zero and the participant list is non-empty the first
`Div` call divides by a zero total weight and panics; the panic is
reified as `none`. -/
def calculateWeightedSplit (expenseAmount : ℚ)
    (ps : List ExpenseParticipant) : Option (Except String (List SplitShare)) :=
  match validateTotal (·.weight) "weight required" "invalid weight" ps with
  | .error e => some (.error e)
  | .ok totalWeight =>
    if ps ≠ [] ∧ totalWeight = 0 then none
    else some (.ok (ps.map fun p =>
      { userID := p.userID
        amount := decDiv (expenseAmount * p.weight.parsedOr0) totalWeight
        percentage := decDiv p.weight.parsedOr0 totalWeight * 100 }))

/-! ### Settlement Lifecycle Manager (part_001, persistence side) -/

/-- A persisted `models.Settlement` row (`SettledAt` uses an abstract
clock value). -/
structure Settlement where
  id : ℕ
  eventID : ℕ
  fromUserID : ℕ
  toUserID : ℕ
  amount : ℚ
  status : String
  paymentReference : String
  settledAt : Option ℕ
deriving DecidableEq, Repr

/-- The rows of the settlements table that are pending for an event —
the set the spec's atomicity guarantee is about. -/
def pendingFor (db : List Settlement) (eventID : ℕ) : List Settlement :=
  db.filter (fun s => s.eventID == eventID && s.status == "pending")

/-- `MarkSettlementCompleted`: fetch the settlement by primary key,
refuse when missing or not pending, otherwise update `status`,
`payment_reference` and `settled_at` on that row. -/
def MarkSettlementCompleted (db : List Settlement) (settlementID : ℕ)
    (paymentReference : String) (now : ℕ) : Except String (List Settlement) :=
  match db.find? (fun s => s.id == settlementID) with
  | none => .error "settlement not found"
  | some settlement =>
    if settlement.status ≠ "pending" then .error "settlement is not pending"
    else .ok (db.map fun s =>
      if s.id == settlementID then
        { s with status := "completed"
                 paymentReference := paymentReference
                 settledAt := some now }
      else s)

/-- Fault injection for the storage collaborator during
`CreateSettlements`: every call succeeds, or the `Event` row fetch
inside `GenerateOptimalSettlements` fails, or the n-th settlement
insert fails. -/
inductive StorageFault
  | ok
  | eventFetchFails
  | insertFails (n : ℕ)
deriving DecidableEq, Repr

/-- `CreateSettlements` (the `generateAndPersist` of the spec), as the
sequence of storage operations the Go function performs: (1) delete all
pending settlements of the event, (2) run `GenerateOptimalSettlements`
(which re-reads the ledger and fetches the event row), (3) insert the
drafts with one `Create` call each, (4) re-load the pending settlements
of the event.  The source wraps none of this in a transaction, so every
step mutates the shared table immediately; `fault` selects which (if
any) storage call fails, and the function returns its `error`-or-result
together with the state the table is left in. -/
def CreateSettlements (L : Ledger) (eventID : ℕ) (fault : StorageFault)
    (freshID : ℕ) (db : List Settlement) :
    Except String (List Settlement) × List Settlement :=
  let db1 := db.filter (fun s => !(s.eventID == eventID && s.status == "pending"))
  if fault = .eventFetchFails then (.error "failed to get event", db1)
  else
    let rows := (GenerateOptimalSettlements L).enum.map (fun d =>
      { id := freshID + d.1
        eventID := eventID
        fromUserID := d.2.fromUserID
        toUserID := d.2.toUserID
        amount := d.2.amount
        status := "pending"
        paymentReference := ""
        settledAt := none : Settlement })
    match fault with
    | .insertFails n =>
      if n < rows.length then
        (.error "failed to create settlement", db1 ++ rows.take n)
      else (.ok (pendingFor (db1 ++ rows) eventID), db1 ++ rows)
    | _ => (.ok (pendingFor (db1 ++ rows) eventID), db1 ++ rows)

/-- Modelled from the spec: `go.mod` is not among the sources, and it is
the `go` directive in it that fixes the capture semantics of the
`for _, balance := range balances` loop in `ValidateSettlement`, whose
body stores `&balance` of the range variable (the repository docs say
only "Go 1.21+"; under a `go 1.21` directive both stored pointers would
alias one shared loop variable and end up at the last participant's
balance, under `go 1.22` or later each iteration has its own variable).
The spec describes the validation as comparing the two users' own
balances, so the lookup is modelled with per-iteration loop variables:
each match rebinds the pointer, the last matching entry wins.  The rest
follows the source: participant checks, positivity check, then the four
balance checks, each failing with its own message. -/
def ValidateSettlement (L : Ledger) (fromUserID toUserID : ℕ)
    (amount : ℚ) : Except String Unit :=
  if fromUserID ∉ L.participants then
    .error "from user is not a participant in this event"
  else if toUserID ∉ L.participants then
    .error "to user is not a participant in this event"
  else if amount ≤ 0 then .error "settlement amount must be positive"
  else
    let balances := CalculateUserBalances L
    match balances.reverse.find? (fun b => b.userID == fromUserID),
          balances.reverse.find? (fun b => b.userID == toUserID) with
    | some fromBalance, some toBalance =>
      if ¬ fromBalance.netBalance < 0 then .error "from user does not owe money"
      else if ¬ 0 < toBalance.netBalance then .error "to user is not owed money"
      else if amount > fromBalance.owesAmount then
        .error "settlement amount exceeds what from user owes"
      else if amount > toBalance.owedAmount then
        .error "settlement amount exceeds what to user is owed"
      else .ok ()
    | _, _ => .error "unable to find user balances"

/-- `CreateCustomSettlement`: validate, then insert one pending
settlement row; on a validation error nothing is persisted. -/
def CreateCustomSettlement (L : Ledger) (eventID fromUserID toUserID : ℕ)
    (amount : ℚ) (freshID : ℕ) (db : List Settlement) :
    Except String Settlement × List Settlement :=
  match ValidateSettlement L fromUserID toUserID amount with
  | .error e => (.error e, db)
  | .ok _ =>
    let settlement : Settlement :=
      { id := freshID
        eventID := eventID
        fromUserID := fromUserID
        toUserID := toUserID
        amount := amount
        status := "pending"
        paymentReference := ""
        settledAt := none }
    (.ok settlement, db ++ [settlement])

/-! ### Spec-side balance formulas (written from the claim wording, to
be compared with the code-side definitions above) -/

/-- Stated from the claim: the sum of `p`'s contribution amounts. -/
def specContributed (L : Ledger) (p : ℕ) : ℚ :=
  ((L.contributions.filter (fun c => decide (c.userID = p))).map (·.amount)).sum

/-- Stated from the claim: the sum of amounts of expenses submitted by
`p` with status approved or pending. -/
def specSpent (L : Ledger) (p : ℕ) : ℚ :=
  ((L.expenses.filter (fun e => decide (e.submittedBy = p) &&
    (e.status == .approved || e.status == .pending))).map (·.amount)).sum

/-- Stated from the claim: the sum of `p`'s expense-share amounts over
the event's approved or pending expenses. -/
def specShare (L : Ledger) (p : ℕ) : ℚ :=
  ((L.shares.filter (fun s => decide (s.userID = p) &&
    L.expenses.any (fun e => decide (e.id = s.expenseID) &&
      (e.status == .approved || e.status == .pending)))).map (·.amount)).sum

/-- Total of the `OwesAmount` of the debtors (`NetBalance < 0`). -/
def debtorsOwesTotal (bs : List UserBalance) : ℚ :=
  ((bs.filter (fun b => b.netBalance < 0)).map (·.owesAmount)).sum

/-- Total of the `OwedAmount` of the creditors (`NetBalance > 0`). -/
def creditorsOwedTotal (bs : List UserBalance) : ℚ :=
  ((bs.filter (fun b => 0 < b.netBalance)).map (·.owedAmount)).sum

/-- Total settlement amount a user pays in a draft list (grouping by
`FromUserID`). -/
def sentBy (S : List SettlementDraft) (u : ℕ) : ℚ :=
  ((S.filter (fun s => s.fromUserID == u)).map (·.amount)).sum

/-- Total settlement amount a user receives in a draft list (grouping
by `ToUserID`). -/
def recvBy (S : List SettlementDraft) (u : ℕ) : ℚ :=
  ((S.filter (fun s => s.toUserID == u)).map (·.amount)).sum

/-- A `UserBalance` whose `owesAmount`/`owedAmount` fields carry the
values `CalculateUserBalances` derives from `netBalance`. -/
def UserBalance.wellFormed (b : UserBalance) : Prop :=
  b.owesAmount = (if b.netBalance < 0 then -b.netBalance else 0) ∧
  b.owedAmount = (if 0 < b.netBalance then b.netBalance else 0)

/-! ### List-sum helper lemmas -/

theorem sum_map_add2 {α : Type} (l : List α) (f g : α → ℚ) :
    (l.map (fun x => f x + g x)).sum = (l.map f).sum + (l.map g).sum := by
  induction l with
  | nil => simp
  | cons x xs ih => simp only [List.map_cons, List.sum_cons, ih]; ring

theorem sum_map_sub2 {α : Type} (l : List α) (f g : α → ℚ) :
    (l.map (fun x => f x - g x)).sum = (l.map f).sum - (l.map g).sum := by
  induction l with
  | nil => simp
  | cons x xs ih => simp only [List.map_cons, List.sum_cons, ih]; ring

theorem filter_cons_sum {α : Type} (x : α) (xs : List α) (q : α → Bool) (f : α → ℚ) :
    (((x :: xs).filter q).map f).sum
      = (if q x then f x else 0) + ((xs.filter q).map f).sum := by
  by_cases h : q x <;> simp [List.filter_cons, h]

theorem sum_filter_eq_sum_ite {α : Type} (l : List α) (q : α → Bool) (f : α → ℚ) :
    ((l.filter q).map f).sum = (l.map (fun x => if q x then f x else 0)).sum := by
  induction l with
  | nil => rfl
  | cons x xs ih => by_cases h : q x <;> simp [List.filter_cons, h, ih]

theorem sum_map_ite_filter {α : Type} (l : List α) (q P : α → Bool) (f : α → ℚ) :
    ((l.filter q).map (fun s => if P s then f s else 0)).sum
      = ((l.filter (fun s => q s && P s)).map f).sum := by
  induction l with
  | nil => rfl
  | cons x xs ih =>
    by_cases hq : q x
    · by_cases hP : P x <;> simp [List.filter_cons, hq, hP, ih]
    · simp [List.filter_cons, hq, ih]

theorem sum_ite_key_of_mem (parts : List ℕ) (hnd : parts.Nodup) (k : ℕ)
    (hk : k ∈ parts) (c : ℚ) :
    (parts.map (fun u => if k == u then c else 0)).sum = c := by
  induction parts with
  | nil => cases hk
  | cons u parts ih =>
    obtain ⟨hu, hnd'⟩ := List.nodup_cons.mp hnd
    by_cases h : k = u
    · subst h
      have hz : (parts.map (fun u => if k == u then c else 0)).sum = 0 := by
        apply List.sum_eq_zero
        intro x hx
        obtain ⟨v, hv, rfl⟩ := List.mem_map.mp hx
        have : k ≠ v := fun hkv => hu (hkv ▸ hv)
        simp [this]
      rw [List.map_cons, List.sum_cons, hz]
      simp
    · have hk' : k ∈ parts := by
        rcases List.mem_cons.mp hk with h' | h'
        · exact absurd h' h
        · exact h'
      have hcond : (k == u) = false := by simp [h]
      rw [List.map_cons, List.sum_cons, hcond, ih hnd' hk']
      simp

theorem sum_ite_key_of_not_mem (parts : List ℕ) (k : ℕ)
    (hk : k ∉ parts) (c : ℚ) :
    (parts.map (fun u => if k == u then c else 0)).sum = 0 := by
  apply List.sum_eq_zero
  intro x hx
  obtain ⟨v, hv, rfl⟩ := List.mem_map.mp hx
  have : k ≠ v := fun hkv => hk (hkv ▸ hv)
  simp [this]

theorem keyed_filter_sum {α : Type} (parts : List ℕ) (hnd : parts.Nodup)
    (xs : List α) (key : α → ℕ) (P : α → Bool) (f : α → ℚ)
    (hk : ∀ x ∈ xs, P x = true → key x ∈ parts) :
    (parts.map (fun u => ((xs.filter (fun x => P x && key x == u)).map f).sum)).sum
      = ((xs.filter P).map f).sum := by
  induction xs with
  | nil => simp [List.sum_eq_zero]
  | cons x xs ih =>
    have hx : ∀ u : ℕ, (((x :: xs).filter (fun x => P x && key x == u)).map f).sum
        = (if P x then (if key x == u then f x else 0) else 0)
          + ((xs.filter (fun x => P x && key x == u)).map f).sum := by
      intro u
      rw [filter_cons_sum]
      by_cases hP : P x
      · by_cases hKey : key x == u <;> simp [hP, hKey]
      · simp [hP]
    rw [List.map_congr_left (fun u _ => hx u), sum_map_add2,
      ih (fun x hx hP => hk x (List.mem_cons_of_mem _ hx) hP)]
    by_cases hP : P x
    · rw [List.map_congr_left (fun u _ => if_pos hP),
        sum_ite_key_of_mem parts hnd (key x) (hk x (List.mem_cons_self x xs) hP) (f x)]
      rw [filter_cons_sum, if_pos hP]
    · rw [List.map_congr_left (fun u _ => if_neg hP)]
      rw [filter_cons_sum, if_neg hP]
      simp [List.sum_eq_zero]

theorem sum_sum_swap {α β : Type} (xs : List α) (ys : List β) (f : α → β → ℚ) :
    (xs.map (fun x => (ys.map (f x)).sum)).sum
      = (ys.map (fun y => (xs.map (fun x => f x y)).sum)).sum := by
  induction xs with
  | nil => simp [List.sum_eq_zero]
  | cons x xs ih =>
    simp only [List.map_cons, List.sum_cons, ih, ← sum_map_add2]

theorem beq_eq_decide (a b : ℕ) : (a == b) = decide (a = b) := by
  by_cases h : a = b <;> simp [h]

theorem beq_comm_nat (a b : ℕ) : (a == b) = (b == a) := by
  by_cases h : a = b
  · simp [h]
  · have h' : ¬b = a := fun hc => h hc.symm
    simp [h, h']

theorem any_congr2 {α : Type} (l : List α) (p q : α → Bool)
    (h : ∀ a ∈ l, p a = q a) : l.any p = l.any q := by
  induction l with
  | nil => rfl
  | cons x xs ih =>
    simp only [List.any_cons, h x (List.mem_cons_self x xs),
      ih (fun a ha => h a (List.mem_cons_of_mem _ ha))]

theorem statusBool (st : ExpenseStatus) :
    st.counts = (st == .approved || st == .pending) := by
  cases st <;> rfl

/-! ### Bridges between the SQL-join sums and the claim-side sums -/

theorem join_inner_sum (es : List Expense) (hids : (es.map (·.id)).Nodup)
    (x : ℕ) (c : ℚ) :
    ((es.filter (fun e => e.id == x && e.status.counts)).map (fun _ => c)).sum
      = if es.any (fun e => e.id == x && e.status.counts) then c else 0 := by
  induction es with
  | nil => rfl
  | cons e es ih =>
    simp only [List.map_cons, List.nodup_cons] at hids
    obtain ⟨hid, hids'⟩ := hids
    by_cases h : (e.id == x && e.status.counts)
    · have hx : x = e.id := by
        have h2 := (Bool.and_eq_true _ _).mp h
        exact (eq_of_beq h2.1).symm
      have hz : es.filter (fun e' => e'.id == x && e'.status.counts) = [] := by
        rw [List.filter_eq_nil_iff]
        intro e' he'
        have hne : e'.id ≠ e.id := fun hEq => hid (hEq ▸ List.mem_map_of_mem _ he')
        simp [hx, hne]
      simp [List.filter_cons, h, hz, List.any_cons]
    · have hfalse : (e.id == x && e.status.counts) = false := by simpa using h
      simp only [List.filter_cons, hfalse, Bool.false_eq_true, if_false, List.any_cons,
        Bool.false_or]
      exact ih hids'

theorem contributionSum_eq_spec (L : Ledger) (p : ℕ) :
    contributionSum L p = specContributed L p := by
  unfold contributionSum specContributed
  rw [List.filter_congr (fun c _ => beq_eq_decide c.userID p)]

theorem expenseSum_eq_spec (L : Ledger) (p : ℕ) :
    expenseSum L p = specSpent L p := by
  unfold expenseSum specSpent
  rw [List.filter_congr]
  intro e _
  rw [beq_eq_decide, statusBool]

theorem shareJoinSum_eq_spec (L : Ledger)
    (hids : (L.expenses.map (·.id)).Nodup) (p : ℕ) :
    shareJoinSum L p = specShare L p := by
  unfold shareJoinSum specShare
  rw [List.map_congr_left
    (fun s _ => join_inner_sum L.expenses hids s.expenseID s.amount)]
  rw [sum_map_ite_filter]
  have hfilters : L.shares.filter
        (fun s => s.userID == p &&
          L.expenses.any fun e => e.id == s.expenseID && e.status.counts)
      = L.shares.filter (fun s => decide (s.userID = p) &&
          L.expenses.any fun e => decide (e.id = s.expenseID) &&
            (e.status == .approved || e.status == .pending)) := by
    apply List.filter_congr
    intro s _
    rw [beq_eq_decide s.userID p]
    congr 1
    apply any_congr2
    intro e _
    rw [beq_eq_decide e.id s.expenseID, statusBool]
  rw [hfilters]


def owesOf (l : List UserBalance) (u : ℕ) : ℚ :=
  ((l.filter (fun b => b.userID == u)).map (·.owesAmount)).sum

def owedOf (l : List UserBalance) (u : ℕ) : ℚ :=
  ((l.filter (fun b => b.userID == u)).map (·.owedAmount)).sum

theorem sentBy_cons (s : SettlementDraft) (S : List SettlementDraft) (u : ℕ) :
    sentBy (s :: S) u = (if s.fromUserID == u then s.amount else 0) + sentBy S u :=
  filter_cons_sum s S _ _

theorem recvBy_cons (s : SettlementDraft) (S : List SettlementDraft) (u : ℕ) :
    recvBy (s :: S) u = (if s.toUserID == u then s.amount else 0) + recvBy S u :=
  filter_cons_sum s S _ _

theorem owesOf_cons (b : UserBalance) (l : List UserBalance) (u : ℕ) :
    owesOf (b :: l) u = (if b.userID == u then b.owesAmount else 0) + owesOf l u :=
  filter_cons_sum b l _ _

theorem owedOf_cons (b : UserBalance) (l : List UserBalance) (u : ℕ) :
    owedOf (b :: l) u = (if b.userID == u then b.owedAmount else 0) + owedOf l u :=
  filter_cons_sum b l _ _

theorem greedyLoop_spec (ds cs : List UserBalance) :
    (∀ d ∈ ds, 0 < d.owesAmount) → (∀ c ∈ cs, 0 < c.owedAmount) →
    (ds.map (·.owesAmount)).sum = (cs.map (·.owedAmount)).sum →
    (∀ u, sentBy (greedyLoop ds cs) u = owesOf ds u) ∧
    (∀ u, recvBy (greedyLoop ds cs) u = owedOf cs u) ∧
    ds.length ≤ (greedyLoop ds cs).length ∧
    cs.length ≤ (greedyLoop ds cs).length ∧
    (greedyLoop ds cs).length ≤ ds.length + cs.length - 1 := by
  induction ds, cs using greedyLoop.induct with
  | case1 cs =>
    intro _ hc hbal
    cases cs with
    | nil => simp [greedyLoop, sentBy, recvBy, owesOf, owedOf]
    | cons c cs' =>
      exfalso
      have hpos : 0 < (((c :: cs').map (·.owedAmount)).sum) := by
        apply List.sum_pos
        · intro x hx
          obtain ⟨b, hb, rfl⟩ := List.mem_map.mp hx
          exact hc b hb
        · simp
      simp only [List.map_nil, List.sum_nil] at hbal
      linarith
  | case2 d ds =>
    intro hd _ hbal
    exfalso
    have hpos : 0 < (((d :: ds).map (·.owesAmount)).sum) := by
      apply List.sum_pos
      · intro x hx
        obtain ⟨b, hb, rfl⟩ := List.mem_map.mp hx
        exact hd b hb
      · simp
    simp only [List.map_nil, List.sum_nil] at hbal
    linarith
  | case3 d ds c cs ih =>
    intro hd hc hbal
    simp only [List.map_cons, List.sum_cons] at hbal
    rcases lt_trichotomy d.owesAmount c.owedAmount with hlt | heq | hgt
    · -- debtor is exhausted, creditor keeps a positive remainder
      have hmin : min d.owesAmount c.owedAmount = d.owesAmount := min_eq_left hlt.le
      have hA : d.owesAmount - min d.owesAmount c.owedAmount = 0 := by rw [hmin]; ring
      have hB : ¬ c.owedAmount - min d.owesAmount c.owedAmount = 0 := by
        rw [hmin]; intro h; linarith [sub_eq_zero.mp h]
      rw [dif_pos hA, dif_neg hB] at ih
      obtain ⟨hsent, hrecv, hlen1, hlen2, hlen3⟩ := ih
        (fun b hb => hd b (List.mem_cons_of_mem _ hb))
        (by
          intro b hb
          rcases List.mem_cons.mp hb with rfl | hb'
          · simpa [hmin] using sub_pos.mpr hlt
          · exact hc b (List.mem_cons_of_mem _ hb'))
        (by simp only [List.map_cons, List.sum_cons, hmin]; linarith)
      rw [greedyLoop, if_pos hA, if_neg hB]
      refine ⟨?_, ?_, ?_, ?_, ?_⟩
      · intro u
        rw [sentBy_cons, hsent u, owesOf_cons, hmin]
      · intro u
        rw [recvBy_cons, hrecv u, owedOf_cons, owedOf_cons, hmin]
        by_cases h : c.userID == u <;> simp [h] <;> try ring
      · simp only [List.length_cons]; omega
      · simp only [List.length_cons] at hlen2 ⊢; omega
      · simp only [List.length_cons] at hlen3 ⊢; omega
    · -- both sides hit zero simultaneously
      have hmin : min d.owesAmount c.owedAmount = d.owesAmount := min_eq_left heq.le
      have hA : d.owesAmount - min d.owesAmount c.owedAmount = 0 := by rw [hmin]; ring
      have hB : c.owedAmount - min d.owesAmount c.owedAmount = 0 := by rw [hmin, heq]; ring
      rw [dif_pos hA, dif_pos hB] at ih
      obtain ⟨hsent, hrecv, hlen1, hlen2, hlen3⟩ := ih
        (fun b hb => hd b (List.mem_cons_of_mem _ hb))
        (fun b hb => hc b (List.mem_cons_of_mem _ hb))
        (by linarith)
      rw [greedyLoop, if_pos hA, if_pos hB]
      refine ⟨?_, ?_, ?_, ?_, ?_⟩
      · intro u
        rw [sentBy_cons, hsent u, owesOf_cons, hmin]
      · intro u
        rw [recvBy_cons, hrecv u, owedOf_cons, hmin, heq]
      · simp only [List.length_cons]; omega
      · simp only [List.length_cons]; omega
      · simp only [List.length_cons] at hlen3 ⊢; omega
    · -- creditor is exhausted, debtor keeps a positive remainder
      have hmin : min d.owesAmount c.owedAmount = c.owedAmount := min_eq_right hgt.le
      have hA : ¬ d.owesAmount - min d.owesAmount c.owedAmount = 0 := by
        rw [hmin]; intro h; linarith [sub_eq_zero.mp h]
      have hB : c.owedAmount - min d.owesAmount c.owedAmount = 0 := by rw [hmin]; ring
      rw [dif_neg hA, dif_pos hB] at ih
      obtain ⟨hsent, hrecv, hlen1, hlen2, hlen3⟩ := ih
        (by
          intro b hb
          rcases List.mem_cons.mp hb with rfl | hb'
          · simpa [hmin] using sub_pos.mpr hgt
          · exact hd b (List.mem_cons_of_mem _ hb'))
        (fun b hb => hc b (List.mem_cons_of_mem _ hb))
        (by simp only [List.map_cons, List.sum_cons, hmin]; linarith)
      rw [greedyLoop, if_neg hA, if_pos hB]
      refine ⟨?_, ?_, ?_, ?_, ?_⟩
      · intro u
        rw [sentBy_cons, hsent u, owesOf_cons, owesOf_cons, hmin]
        by_cases h : d.userID == u <;> simp [h] <;> try ring
      · intro u
        rw [recvBy_cons, hrecv u, owedOf_cons, hmin]
      · simp only [List.length_cons] at hlen1 ⊢; omega
      · simp only [List.length_cons]; omega
      · simp only [List.length_cons] at hlen3 ⊢; omega

/-! ### The reducer specification transported through the sorting
steps (sorting permutes the debtor and creditor lists, and nothing in
the totals depends on the order) -/

theorem owesOf_perm {l l' : List UserBalance} (h : l.Perm l') (u : ℕ) :
    owesOf l u = owesOf l' u := by
  unfold owesOf
  exact ((h.filter _).map (·.owesAmount)).sum_eq

theorem owedOf_perm {l l' : List UserBalance} (h : l.Perm l') (u : ℕ) :
    owedOf l u = owedOf l' u := by
  unfold owedOf
  exact ((h.filter _).map (·.owedAmount)).sum_eq

/-- The debtors of a balance list: entries with `NetBalance < 0`. -/
def debtorsOf (bs : List UserBalance) : List UserBalance :=
  bs.filter (fun b => b.netBalance < 0)

/-- The creditors of a balance list: entries with `NetBalance > 0`. -/
def creditorsOf (bs : List UserBalance) : List UserBalance :=
  bs.filter (fun b => 0 < b.netBalance)

theorem generateFromBalances_spec (bs : List UserBalance)
    (hwf : ∀ b ∈ bs, b.wellFormed)
    (hbal : debtorsOwesTotal bs = creditorsOwedTotal bs) :
    (∀ u, sentBy (generateFromBalances bs) u = owesOf (debtorsOf bs) u) ∧
    (∀ u, recvBy (generateFromBalances bs) u = owedOf (creditorsOf bs) u) ∧
    (debtorsOf bs).length ≤ (generateFromBalances bs).length ∧
    (creditorsOf bs).length ≤ (generateFromBalances bs).length ∧
    (generateFromBalances bs).length
      ≤ (debtorsOf bs).length + (creditorsOf bs).length - 1 := by
  have hpd : (sortByOwesDesc (debtorsOf bs)).Perm (debtorsOf bs) :=
    List.perm_insertionSort _ _
  have hpc : (sortByOwedDesc (creditorsOf bs)).Perm (creditorsOf bs) :=
    List.perm_insertionSort _ _
  have hwfd : ∀ d ∈ sortByOwesDesc (debtorsOf bs), 0 < d.owesAmount := by
    intro d hd
    have hmem : d ∈ debtorsOf bs := hpd.mem_iff.mp hd
    obtain ⟨hmem', hlt⟩ := List.mem_filter.mp hmem
    have hneg : d.netBalance < 0 := of_decide_eq_true hlt
    rw [(hwf d hmem').1, if_pos hneg]
    linarith
  have hwfc : ∀ c ∈ sortByOwedDesc (creditorsOf bs), 0 < c.owedAmount := by
    intro c hc
    have hmem : c ∈ creditorsOf bs := hpc.mem_iff.mp hc
    obtain ⟨hmem', hlt⟩ := List.mem_filter.mp hmem
    have hpos : 0 < c.netBalance := of_decide_eq_true hlt
    rw [(hwf c hmem').2, if_pos hpos]
    exact hpos
  have hsum : ((sortByOwesDesc (debtorsOf bs)).map (·.owesAmount)).sum
      = ((sortByOwedDesc (creditorsOf bs)).map (·.owedAmount)).sum := by
    rw [(hpd.map (·.owesAmount)).sum_eq, (hpc.map (·.owedAmount)).sum_eq]
    exact hbal
  obtain ⟨hsent, hrecv, h1, h2, h3⟩ :=
    greedyLoop_spec (sortByOwesDesc (debtorsOf bs)) (sortByOwedDesc (creditorsOf bs))
      hwfd hwfc hsum
  have hgen : generateFromBalances bs
      = greedyLoop (sortByOwesDesc (debtorsOf bs)) (sortByOwedDesc (creditorsOf bs)) := rfl
  refine ⟨?_, ?_, ?_, ?_, ?_⟩
  · intro u
    rw [hgen, hsent u, owesOf_perm hpd]
  · intro u
    rw [hgen, hrecv u, owedOf_perm hpc]
  · rw [hgen, ← hpd.length_eq]; exact h1
  · rw [hgen, ← hpc.length_eq]; exact h2
  · rw [hgen, ← hpd.length_eq, ← hpc.length_eq]; exact h3

/-- Every balance produced by `CalculateUserBalances` has its
`owesAmount`/`owedAmount` derived from `netBalance`. -/
theorem calculate_wellFormed (L : Ledger) :
    ∀ b ∈ CalculateUserBalances L, b.wellFormed := by
  intro b hb
  obtain ⟨p, -, rfl⟩ := List.mem_map.mp hb
  simp only [balanceFor, UserBalance.wellFormed]
  refine ⟨?_, trivial⟩
  split
  · next h => rw [abs_of_neg h]
  · rfl

theorem wf_owes_sub_owed (b : UserBalance) (h : b.wellFormed) :
    b.owesAmount - b.owedAmount = -b.netBalance := by
  obtain ⟨h1, h2⟩ := h
  rw [h1, h2]
  rcases lt_trichotomy b.netBalance 0 with hn | hn | hn
  · rw [if_pos hn, if_neg (by linarith)]; ring
  · rw [hn]; norm_num
  · rw [if_neg (by linarith), if_pos hn]; ring

theorem debtors_owes_total_eq (bs : List UserBalance)
    (hwf : ∀ b ∈ bs, b.wellFormed) :
    debtorsOwesTotal bs = (bs.map (·.owesAmount)).sum := by
  unfold debtorsOwesTotal
  rw [sum_filter_eq_sum_ite]
  apply congrArg
  apply List.map_congr_left
  intro b hb
  by_cases h : b.netBalance < 0
  · simp [h]
  · have : b.owesAmount = 0 := by rw [(hwf b hb).1, if_neg h]
    simp [h, this]

theorem creditors_owed_total_eq (bs : List UserBalance)
    (hwf : ∀ b ∈ bs, b.wellFormed) :
    creditorsOwedTotal bs = (bs.map (·.owedAmount)).sum := by
  unfold creditorsOwedTotal
  rw [sum_filter_eq_sum_ite]
  apply congrArg
  apply List.map_congr_left
  intro b hb
  by_cases h : 0 < b.netBalance
  · simp [h]
  · have : b.owedAmount = 0 := by rw [(hwf b hb).2, if_neg h]
    simp [h, this]

theorem sum_map_neg2 {α : Type} (l : List α) (f : α → ℚ) :
    (l.map (fun x => -f x)).sum = -(l.map f).sum := by
  induction l with
  | nil => simp
  | cons x xs ih => simp only [List.map_cons, List.sum_cons, ih]; ring

theorem sum_map_add_sub {α : Type} (l : List α) (f g h : α → ℚ) :
    (l.map (fun x => f x + g x - h x)).sum
      = (l.map f).sum + (l.map g).sum - (l.map h).sum := by
  induction l with
  | nil => simp
  | cons x xs ih => simp only [List.map_cons, List.sum_cons, ih]; ring

/-! ### Balance conservation: the total the debtors owe matches the
total the creditors are owed, over a closed ledger -/

theorem spent_total (L : Ledger) (hnd : L.participants.Nodup)
    (hsub : ∀ e ∈ L.expenses, e.status.counts = true → e.submittedBy ∈ L.participants) :
    (L.participants.map (fun p => expenseSum L p)).sum
      = ((L.expenses.filter (·.status.counts)).map (·.amount)).sum := by
  have hswap : ∀ p : ℕ, expenseSum L p
      = ((L.expenses.filter
          (fun e => e.status.counts && e.submittedBy == p)).map (·.amount)).sum := by
    intro p
    unfold expenseSum
    have hfilter : L.expenses.filter (fun e => e.submittedBy == p && e.status.counts)
        = L.expenses.filter (fun e => e.status.counts && e.submittedBy == p) :=
      List.filter_congr (fun e _ => Bool.and_comm _ _)
    rw [hfilter]
  rw [List.map_congr_left (fun p _ => hswap p)]
  exact keyed_filter_sum L.participants hnd L.expenses (·.submittedBy)
    (·.status.counts) (·.amount) hsub

theorem share_total (L : Ledger) (hnd : L.participants.Nodup)
    (hshare : ∀ s ∈ L.shares, s.userID ∈ L.participants)
    (hexact : ∀ e ∈ L.expenses,
      ((L.shares.filter (fun s => s.expenseID == e.id)).map (·.amount)).sum = e.amount) :
    (L.participants.map (fun p => shareJoinSum L p)).sum
      = ((L.expenses.filter (·.status.counts)).map (·.amount)).sum := by
  have h1 : ∀ p : ℕ, shareJoinSum L p
      = ((L.shares.filter (fun s => (true : Bool) && s.userID == p)).map (fun s =>
          ((L.expenses.filter (fun e => e.id == s.expenseID && e.status.counts)).map
            (fun _ => s.amount)).sum)).sum := by
    intro p
    unfold shareJoinSum
    have hfilter : L.shares.filter (fun s => s.userID == p)
        = L.shares.filter (fun s => (true : Bool) && s.userID == p) :=
      List.filter_congr (fun s _ => (Bool.true_and _).symm)
    rw [hfilter]
  rw [List.map_congr_left (fun p _ => h1 p)]
  rw [keyed_filter_sum L.participants hnd L.shares (·.userID) (fun _ => true)
    (fun s => ((L.expenses.filter
      (fun e => e.id == s.expenseID && e.status.counts)).map (fun _ => s.amount)).sum)
    (fun s hs _ => hshare s hs)]
  rw [List.filter_true]
  rw [List.map_congr_left (fun s _ => sum_filter_eq_sum_ite L.expenses
    (fun e => e.id == s.expenseID && e.status.counts) (fun _ => s.amount))]
  rw [sum_sum_swap]
  have h2 : ∀ e ∈ L.expenses,
      (L.shares.map (fun s =>
        if (e.id == s.expenseID && e.status.counts) then s.amount else 0)).sum
      = if e.status.counts then e.amount else 0 := by
    intro e he
    by_cases hc : e.status.counts
    · have hcond : ∀ s : ExpenseShare,
          (if (e.id == s.expenseID && e.status.counts) then s.amount else 0)
            = (if s.expenseID == e.id then s.amount else 0) := by
        intro s
        rw [hc, Bool.and_true, beq_comm_nat]
      rw [List.map_congr_left (fun s _ => hcond s), ← sum_filter_eq_sum_ite,
        hexact e he, if_pos hc]
    · rw [if_neg hc]
      apply List.sum_eq_zero
      intro x hx
      obtain ⟨s, _, rfl⟩ := List.mem_map.mp hx
      have hcf : e.status.counts = false := Bool.eq_false_iff.mpr hc
      rw [hcf, Bool.and_false]
      simp
  rw [List.map_congr_left h2, ← sum_filter_eq_sum_ite]

theorem net_sum_zero (L : Ledger)
    (hnd : L.participants.Nodup)
    (hcontrib : L.contributions = [])
    (hsub : ∀ e ∈ L.expenses, e.status.counts = true → e.submittedBy ∈ L.participants)
    (hshare : ∀ s ∈ L.shares, s.userID ∈ L.participants)
    (hexact : ∀ e ∈ L.expenses,
      ((L.shares.filter (fun s => s.expenseID == e.id)).map (·.amount)).sum = e.amount) :
    ((CalculateUserBalances L).map (·.netBalance)).sum = 0 := by
  have hnet : ∀ p ∈ L.participants, ((·.netBalance) ∘ balanceFor L) p
      = contributionSum L p + expenseSum L p - shareJoinSum L p := fun p _ => rfl
  rw [CalculateUserBalances, List.map_map, List.map_congr_left hnet, sum_map_add_sub]
  have hc0 : (L.participants.map (fun p => contributionSum L p)).sum = 0 := by
    apply List.sum_eq_zero
    intro x hx
    obtain ⟨p, -, rfl⟩ := List.mem_map.mp hx
    simp [contributionSum, hcontrib]
  rw [hc0, spent_total L hnd hsub, share_total L hnd hshare hexact]
  ring

/-- Balance conservation over a contribution-free closed ledger. -/
theorem conservation_of_closed_ledger (L : Ledger)
    (hnd : L.participants.Nodup)
    (hcontrib : L.contributions = [])
    (hsub : ∀ e ∈ L.expenses, e.status.counts = true → e.submittedBy ∈ L.participants)
    (hshare : ∀ s ∈ L.shares, s.userID ∈ L.participants)
    (hexact : ∀ e ∈ L.expenses,
      ((L.shares.filter (fun s => s.expenseID == e.id)).map (·.amount)).sum = e.amount) :
    debtorsOwesTotal (CalculateUserBalances L)
      = creditorsOwedTotal (CalculateUserBalances L) := by
  have hwf := calculate_wellFormed L
  have hdiff : ((CalculateUserBalances L).map (·.owesAmount)).sum
      - ((CalculateUserBalances L).map (·.owedAmount)).sum = 0 := by
    rw [← sum_map_sub2,
      List.map_congr_left (fun b hb => wf_owes_sub_owed b (hwf b hb)),
      sum_map_neg2, net_sum_zero L hnd hcontrib hsub hshare hexact]
    ring
  rw [debtors_owes_total_eq _ hwf, creditors_owed_total_eq _ hwf]
  linarith

/-! ### Per-user lookups -/

theorem filter_swap {α : Type} (l : List α) (p q : α → Bool) :
    (l.filter p).filter q = (l.filter q).filter p := by
  induction l with
  | nil => rfl
  | cons x xs ih =>
    by_cases hp : p x <;> by_cases hq : q x <;>
      simp [List.filter_cons, hp, hq, ih]

theorem filter_userID_singleton (bs : List UserBalance)
    (hnd : (bs.map (·.userID)).Nodup) (b : UserBalance) (hb : b ∈ bs) :
    bs.filter (fun x => x.userID == b.userID) = [b] := by
  induction bs with
  | nil => cases hb
  | cons x bs ih =>
    simp only [List.map_cons, List.nodup_cons] at hnd
    obtain ⟨hx, hnd'⟩ := hnd
    rcases List.mem_cons.mp hb with rfl | hb'
    · rw [List.filter_cons_of_pos (by simp)]
      have hnil : bs.filter (fun x => x.userID == b.userID) = [] := by
        rw [List.filter_eq_nil_iff]
        intro a ha
        have hne : a.userID ≠ b.userID :=
          fun hEq => hx (hEq ▸ List.mem_map_of_mem _ ha)
        simp [hne]
      rw [hnil]
    · have hxb : x.userID ≠ b.userID :=
        fun hEq => hx (hEq ▸ (List.mem_map_of_mem _ hb' : b.userID ∈ bs.map (·.userID)))
      rw [List.filter_cons_of_neg (by simp [hxb])]
      exact ih hnd' hb'

theorem owesOf_debtors (bs : List UserBalance)
    (hnd : (bs.map (·.userID)).Nodup) (b : UserBalance) (hb : b ∈ bs)
    (hneg : b.netBalance < 0) :
    owesOf (debtorsOf bs) b.userID = b.owesAmount := by
  unfold owesOf debtorsOf
  rw [filter_swap, filter_userID_singleton bs hnd b hb]
  simp [hneg]

theorem owedOf_creditors (bs : List UserBalance)
    (hnd : (bs.map (·.userID)).Nodup) (b : UserBalance) (hb : b ∈ bs)
    (hpos : 0 < b.netBalance) :
    owedOf (creditorsOf bs) b.userID = b.owedAmount := by
  unfold owedOf creditorsOf
  rw [filter_swap, filter_userID_singleton bs hnd b hb]
  simp [hpos]

theorem find?_balance (L : Ledger) (u : ℕ) (hu : u ∈ L.participants) :
    (CalculateUserBalances L).reverse.find? (fun b => b.userID == u)
      = some (balanceFor L u) := by
  rw [CalculateUserBalances, ← List.map_reverse]
  have hu' : u ∈ L.participants.reverse := List.mem_reverse.mpr hu
  generalize L.participants.reverse = l at hu'
  induction l with
  | nil => cases hu'
  | cons v l ih =>
    rw [List.map_cons]
    by_cases h : v = u
    · subst h
      exact List.find?_cons_of_pos _ (by
        show ((balanceFor L v).userID == v) = true
        rw [show (balanceFor L v).userID = v from rfl]
        exact beq_self_eq_true v)
    · rw [List.find?_cons_of_neg]
      · exact ih (by
          rcases List.mem_cons.mp hu' with h' | h'
          · exact absurd h'.symm h
          · exact h')
      · show ¬((balanceFor L v).userID == u) = true
        rw [show (balanceFor L v).userID = v from rfl]
        simp [h]

theorem find?_settlement_nodup (db : List Settlement)
    (hids : (db.map (·.id)).Nodup) (s : Settlement) (hs : s ∈ db) :
    db.find? (fun t => t.id == s.id) = some s := by
  induction db with
  | nil => cases hs
  | cons x db ih =>
    simp only [List.map_cons, List.nodup_cons] at hids
    obtain ⟨hx, hids'⟩ := hids
    rcases List.mem_cons.mp hs with rfl | hs'
    · exact List.find?_cons_of_pos _ (beq_self_eq_true s.id)
    · have hxs : x.id ≠ s.id :=
        fun hEq => hx (hEq ▸ (List.mem_map_of_mem _ hs' : s.id ∈ db.map (·.id)))
      rw [List.find?_cons_of_neg _ (by simp [hxs])]
      exact ih hids' hs'

/-! ### Validation-loop lemmas for the splitter -/

theorem validateTotal_ok_sum (field : ExpenseParticipant → FieldVal)
    (rm im : String) (ps : List ExpenseParticipant) (t : ℚ)
    (h : validateTotal field rm im ps = .ok t) :
    (ps.map (fun p => (field p).parsedOr0)).sum = t := by
  induction ps generalizing t with
  | nil =>
    unfold validateTotal at h
    cases h
    rfl
  | cons p ps ih =>
    unfold validateTotal at h
    cases hf : field p with
    | missing => rw [hf] at h; cases h
    | invalid => rw [hf] at h; cases h
    | val q =>
      rw [hf] at h
      cases hrec : validateTotal field rm im ps with
      | error e => rw [hrec] at h; cases h
      | ok t' =>
        rw [hrec] at h
        injection h with h
        simp only [List.map_cons, List.sum_cons, ih t' hrec, hf]
        rw [← h]
        rfl

theorem validateTotal_ok_of_all_val (field : ExpenseParticipant → FieldVal)
    (rm im : String) (ps : List ExpenseParticipant)
    (hall : ∀ p ∈ ps, ∃ q, field p = .val q) :
    validateTotal field rm im ps
      = .ok ((ps.map (fun p => (field p).parsedOr0)).sum) := by
  induction ps with
  | nil => simp [validateTotal]
  | cons p ps ih =>
    obtain ⟨q, hq⟩ := hall p (List.mem_cons_self p ps)
    unfold validateTotal
    rw [hq, ih (fun a ha => hall a (List.mem_cons_of_mem _ ha))]
    simp [hq, FieldVal.parsedOr0]

/-! ### The custom-settlement validation, characterised -/

theorem validate_iff (L : Ledger) (fromU toU : ℕ) (amount : ℚ) :
    (ValidateSettlement L fromU toU amount = .ok ()) ↔
      (fromU ∈ L.participants ∧ toU ∈ L.participants ∧ 0 < amount ∧
        (balanceFor L fromU).netBalance < 0 ∧
        amount ≤ (balanceFor L fromU).owesAmount ∧
        0 < (balanceFor L toU).netBalance ∧
        amount ≤ (balanceFor L toU).owedAmount) := by
  unfold ValidateSettlement
  by_cases h1 : fromU ∈ L.participants
  case neg =>
    rw [if_pos h1]
    constructor
    · intro h; cases h
    · rintro ⟨hm, -⟩; exact absurd hm h1
  by_cases h2 : toU ∈ L.participants
  case neg =>
    rw [if_neg (not_not_intro h1), if_pos h2]
    constructor
    · intro h; cases h
    · rintro ⟨-, hm, -⟩; exact absurd hm h2
  by_cases h3 : amount ≤ 0
  case pos =>
    rw [if_neg (not_not_intro h1), if_neg (not_not_intro h2), if_pos h3]
    constructor
    · intro h; cases h
    · rintro ⟨-, -, hpos, -⟩; linarith
  rw [if_neg (not_not_intro h1), if_neg (not_not_intro h2), if_neg h3]
  simp only [find?_balance L fromU h1, find?_balance L toU h2]
  constructor
  · intro h
    by_cases c1 : ¬ (balanceFor L fromU).netBalance < 0
    · rw [if_pos c1] at h; cases h
    rw [if_neg c1] at h
    by_cases c2 : ¬ 0 < (balanceFor L toU).netBalance
    · rw [if_pos c2] at h; cases h
    rw [if_neg c2] at h
    by_cases c3 : amount > (balanceFor L fromU).owesAmount
    · rw [if_pos c3] at h; cases h
    rw [if_neg c3] at h
    by_cases c4 : amount > (balanceFor L toU).owedAmount
    · rw [if_pos c4] at h; cases h
    exact ⟨h1, h2, by linarith, not_not.mp c1, not_lt.mp c3, not_not.mp c2,
      not_lt.mp c4⟩
  · rintro ⟨-, -, -, hneg, hle1, hpos2, hle2⟩
    rw [if_neg (not_not_intro hneg), if_neg (not_not_intro hpos2),
      if_neg (not_lt.mpr hle1), if_neg (not_lt.mpr hle2)]

/-! ### The validation errors name the violated condition, following
the order the source checks them in -/

theorem validate_error_from_not_participant (L : Ledger) (fromU toU : ℕ)
    (amount : ℚ) (h : fromU ∉ L.participants) :
    ValidateSettlement L fromU toU amount
      = .error "from user is not a participant in this event" := by
  unfold ValidateSettlement
  rw [if_pos h]

theorem validate_error_to_not_participant (L : Ledger) (fromU toU : ℕ)
    (amount : ℚ) (h1 : fromU ∈ L.participants) (h2 : toU ∉ L.participants) :
    ValidateSettlement L fromU toU amount
      = .error "to user is not a participant in this event" := by
  unfold ValidateSettlement
  rw [if_neg (not_not_intro h1), if_pos h2]

theorem validate_error_nonpositive (L : Ledger) (fromU toU : ℕ)
    (amount : ℚ) (h1 : fromU ∈ L.participants) (h2 : toU ∈ L.participants)
    (h3 : amount ≤ 0) :
    ValidateSettlement L fromU toU amount
      = .error "settlement amount must be positive" := by
  unfold ValidateSettlement
  rw [if_neg (not_not_intro h1), if_neg (not_not_intro h2), if_pos h3]

theorem validate_error_from_not_debtor (L : Ledger) (fromU toU : ℕ)
    (amount : ℚ) (h1 : fromU ∈ L.participants) (h2 : toU ∈ L.participants)
    (h3 : 0 < amount) (h4 : ¬ (balanceFor L fromU).netBalance < 0) :
    ValidateSettlement L fromU toU amount
      = .error "from user does not owe money" := by
  unfold ValidateSettlement
  rw [if_neg (not_not_intro h1), if_neg (not_not_intro h2), if_neg (not_le.mpr h3)]
  simp only [find?_balance L fromU h1, find?_balance L toU h2]
  rw [if_pos h4]

theorem validate_error_to_not_creditor (L : Ledger) (fromU toU : ℕ)
    (amount : ℚ) (h1 : fromU ∈ L.participants) (h2 : toU ∈ L.participants)
    (h3 : 0 < amount) (h4 : (balanceFor L fromU).netBalance < 0)
    (h5 : ¬ 0 < (balanceFor L toU).netBalance) :
    ValidateSettlement L fromU toU amount
      = .error "to user is not owed money" := by
  unfold ValidateSettlement
  rw [if_neg (not_not_intro h1), if_neg (not_not_intro h2), if_neg (not_le.mpr h3)]
  simp only [find?_balance L fromU h1, find?_balance L toU h2]
  rw [if_neg (not_not_intro h4), if_pos h5]

theorem validate_error_exceeds_owes (L : Ledger) (fromU toU : ℕ)
    (amount : ℚ) (h1 : fromU ∈ L.participants) (h2 : toU ∈ L.participants)
    (h3 : 0 < amount) (h4 : (balanceFor L fromU).netBalance < 0)
    (h5 : 0 < (balanceFor L toU).netBalance)
    (h6 : (balanceFor L fromU).owesAmount < amount) :
    ValidateSettlement L fromU toU amount
      = .error "settlement amount exceeds what from user owes" := by
  unfold ValidateSettlement
  rw [if_neg (not_not_intro h1), if_neg (not_not_intro h2), if_neg (not_le.mpr h3)]
  simp only [find?_balance L fromU h1, find?_balance L toU h2]
  rw [if_neg (not_not_intro h4), if_neg (not_not_intro h5), if_pos h6]

theorem validate_error_exceeds_owed (L : Ledger) (fromU toU : ℕ)
    (amount : ℚ) (h1 : fromU ∈ L.participants) (h2 : toU ∈ L.participants)
    (h3 : 0 < amount) (h4 : (balanceFor L fromU).netBalance < 0)
    (h5 : 0 < (balanceFor L toU).netBalance)
    (h6 : amount ≤ (balanceFor L fromU).owesAmount)
    (h7 : (balanceFor L toU).owedAmount < amount) :
    ValidateSettlement L fromU toU amount
      = .error "settlement amount exceeds what to user is owed" := by
  unfold ValidateSettlement
  rw [if_neg (not_not_intro h1), if_neg (not_not_intro h2), if_neg (not_le.mpr h3)]
  simp only [find?_balance L fromU h1, find?_balance L toU h2]
  rw [if_neg (not_not_intro h4), if_neg (not_not_intro h5),
    if_neg (not_lt.mpr h6), if_pos h7]

/-- A validation error propagates verbatim through
`CreateCustomSettlement`. -/
theorem createCustom_error_lift (L : Ledger) (eventID fromU toU : ℕ)
    (amount : ℚ) (freshID : ℕ) (db : List Settlement) (e : String)
    (h : ValidateSettlement L fromU toU amount = .error e) :
    (CreateCustomSettlement L eventID fromU toU amount freshID db).1 = .error e := by
  unfold CreateCustomSettlement
  rw [h]

/-- `CreateCustomSettlement` succeeds exactly when the validation
does. -/
theorem createCustom_ok_iff (L : Ledger) (eventID fromU toU : ℕ)
    (amount : ℚ) (freshID : ℕ) (db : List Settlement) :
    (∃ s, (CreateCustomSettlement L eventID fromU toU amount freshID db).1 = .ok s)
      ↔ ValidateSettlement L fromU toU amount = .ok () := by
  unfold CreateCustomSettlement
  cases hv : ValidateSettlement L fromU toU amount with
  | error e =>
    constructor
    · rintro ⟨s, hs⟩
      exact absurd hs (by simp)
    · intro h
      cases h
  | ok u =>
    cases u
    constructor
    · intro _
      rfl
    · intro _
      exact ⟨_, rfl⟩

/-- A validation error leaves the settlements table untouched. -/
theorem createCustom_error_keeps_db (L : Ledger) (eventID fromU toU : ℕ)
    (amount : ℚ) (freshID : ℕ) (db : List Settlement) :
    ∀ e, (CreateCustomSettlement L eventID fromU toU amount freshID db).1 = .error e →
      (CreateCustomSettlement L eventID fromU toU amount freshID db).2 = db := by
  unfold CreateCustomSettlement
  cases hv : ValidateSettlement L fromU toU amount with
  | error e => exact fun e' _ => rfl
  | ok u =>
    cases u
    intro e' he
    exact absurd he (by simp)

/-! ### Concrete inputs used by the claim verdicts -/

/-- The ledger of the spec's concrete scenario (§8), read literally:
three participants, one `Contribution` row of 90 by user 1, one
approved expense of 90 submitted by user 1 split 30/30/30. -/
def demoLedger : Ledger :=
  { participants := [1, 2, 3]
    contributions := [⟨1, 90⟩]
    expenses := [⟨1, 1, 90, .approved⟩]
    shares := [⟨1, 1, 30⟩, ⟨1, 2, 30⟩, ⟨1, 3, 30⟩] }

/-- One persisted pending settlement of event 7. -/
def demoPending : Settlement :=
  { id := 1, eventID := 7, fromUserID := 2, toUserID := 1, amount := 30
    status := "pending", paymentReference := "", settledAt := none }

/-- A one-participant ledger holding a single contribution row of 10
and nothing else. -/
def contribOnlyLedger : Ledger :=
  { participants := [1], contributions := [⟨1, 10⟩], expenses := [], shares := [] }

/-- A closed two-participant ledger: user 1 paid an approved expense of
10 split 5/5, no contribution rows. -/
def closedLedger : Ledger :=
  { participants := [1, 2]
    contributions := []
    expenses := [⟨1, 1, 10, .approved⟩]
    shares := [⟨1, 1, 5⟩, ⟨1, 2, 5⟩] }

/-! ### Claim verdicts -/

/-- Claim C1 (code_bug): the claim demands that a failed
`generateAndPersist` leave the pending settlements of the event exactly
as they were (delete + insert as one atomic unit).  The source deletes
the pending settlements first, outside any transaction, and only then
generates and inserts row by row; evaluating `CreateSettlements` at an
event that has one pending settlement, with the event-row fetch
failing, returns an error yet leaves the pending set empty — the prior
pending settlement is lost. -/
theorem c1_createSettlements_not_atomic :
    (∃ e, (CreateSettlements demoLedger 7 .eventFetchFails 100 [demoPending]).1
        = .error e) ∧
    pendingFor [demoPending] 7 = [demoPending] ∧
    pendingFor (CreateSettlements demoLedger 7 .eventFetchFails 100 [demoPending]).2 7
      = [] := by
  refine ⟨⟨"failed to get event", rfl⟩, rfl, rfl⟩

/-- Claim C2 (confirmed): for every participant `p` of an event (whose
expense rows carry distinct primary keys), `CalculateUserBalances`
returns for `p` a balance whose `contributed`/`spent` fields are the
claimed sums, whose `netBalance` is contributed + spent − share of
approved-or-pending expenses, whose `owesAmount` is `|netBalance|` when
negative and 0 otherwise, and whose `owedAmount` is `netBalance` when
positive and 0 otherwise; rejected expenses contribute to none of the
sums. -/
theorem c2_balance_formula (L : Ledger)
    (hids : (L.expenses.map (·.id)).Nodup) (p : ℕ) (hp : p ∈ L.participants) :
    ∃ b ∈ CalculateUserBalances L, b.userID = p ∧
      b.contributed = specContributed L p ∧
      b.spent = specSpent L p ∧
      b.netBalance = specContributed L p + specSpent L p - specShare L p ∧
      b.owesAmount = (if b.netBalance < 0 then |b.netBalance| else 0) ∧
      b.owedAmount = (if 0 < b.netBalance then b.netBalance else 0) := by
  refine ⟨balanceFor L p, List.mem_map_of_mem _ hp, rfl, ?_, ?_, ?_, rfl, rfl⟩
  · exact contributionSum_eq_spec L p
  · exact expenseSum_eq_spec L p
  · show contributionSum L p + expenseSum L p - shareJoinSum L p = _
    rw [contributionSum_eq_spec, expenseSum_eq_spec, shareJoinSum_eq_spec L hids]

/-- Witness for C2 at a concrete ledger and participant. -/
theorem c2_balance_formula_witness :
    ∃ b ∈ CalculateUserBalances closedLedger, b.userID = 1 ∧
      b.contributed = specContributed closedLedger 1 ∧
      b.spent = specSpent closedLedger 1 ∧
      b.netBalance = specContributed closedLedger 1 + specSpent closedLedger 1
        - specShare closedLedger 1 ∧
      b.owesAmount = (if b.netBalance < 0 then |b.netBalance| else 0) ∧
      b.owedAmount = (if 0 < b.netBalance then b.netBalance else 0) :=
  c2_balance_formula closedLedger (by simp [closedLedger]) 1 (by simp [closedLedger])

/-- Claim C3 (corrected, counterexample): as frozen, the claim asserts
conservation for every ledger that excludes rejected expenses and has
exact shares, "including ledgers that contain contribution rows".  A
single contribution row of 10 by the only participant makes that
participant owed 10 while nobody owes anything, so total owes ≠ total
owed. -/
theorem c3_counterexample :
    debtorsOwesTotal (CalculateUserBalances contribOnlyLedger) = 0 ∧
    creditorsOwedTotal (CalculateUserBalances contribOnlyLedger) = 10 ∧
    (0 : ℚ) ≠ 10 := by
  refine ⟨?_, ?_, by norm_num⟩ <;>
    norm_num [debtorsOwesTotal, creditorsOwedTotal, CalculateUserBalances, balanceFor,
      contributionSum, expenseSum, shareJoinSum, contribOnlyLedger]

/-- Claim C3 (corrected, amended): balance conservation — total
`owesAmount` of debtors equals total `owedAmount` of creditors — holds
for every ledger with no contribution rows, distinct participants,
distinct expense ids, every approved-or-pending expense submitted by a
participant, every share held by a participant, and every expense's
shares summing exactly to its amount. -/
theorem c3_amended_conservation (L : Ledger)
    (hnd : L.participants.Nodup)
    (hcontrib : L.contributions = [])
    (hsub : ∀ e ∈ L.expenses, e.status.counts = true → e.submittedBy ∈ L.participants)
    (hshare : ∀ s ∈ L.shares, s.userID ∈ L.participants)
    (hexact : ∀ e ∈ L.expenses,
      ((L.shares.filter (fun s => s.expenseID == e.id)).map (·.amount)).sum = e.amount) :
    debtorsOwesTotal (CalculateUserBalances L)
      = creditorsOwedTotal (CalculateUserBalances L) :=
  conservation_of_closed_ledger L hnd hcontrib hsub hshare hexact

/-- Claim C4 (corrected, counterexample): the frozen claim reads the
spec's scenario literally — a `Contribution` row of 90 for A plus A's
approved expense of 90 — and expects A's `netBalance` to be 60.  The
code computes `netBalance = contributed + spent − share
= 90 + 90 − 30 = 150` for A, so no returned balance for user 1 carries
netBalance 60. -/
theorem c4_counterexample :
    ¬ ∃ b ∈ CalculateUserBalances demoLedger, b.userID = 1 ∧ b.netBalance = 60 := by
  rintro ⟨b, hb, h1, h60⟩
  have heval : CalculateUserBalances demoLedger
      = [⟨1, 90, 90, 150, 0, 150⟩, ⟨2, 0, 0, -30, 30, 0⟩, ⟨3, 0, 0, -30, 30, 0⟩] := by
    norm_num [CalculateUserBalances, balanceFor, contributionSum, expenseSum,
      shareJoinSum, demoLedger, ExpenseStatus.counts]
  rw [heval] at hb
  fin_cases hb
  · norm_num at h60
  · norm_num at h1
  · norm_num at h1

/-- Claim C4 (corrected, amended): on the literal scenario ledger the
balances are A = 150 (owed 150), B = −30 (owes 30), C = −30 (owes 30)
— A's 90-contribution row counts on top of the 90 expense A submitted —
and the reducer emits exactly the two settlements the claim expects,
B→A 30 and C→A 30, in one of the two tie orders. -/
theorem c4_amended_scenario :
    CalculateUserBalances demoLedger
      = [⟨1, 90, 90, 150, 0, 150⟩, ⟨2, 0, 0, -30, 30, 0⟩, ⟨3, 0, 0, -30, 30, 0⟩] ∧
    (GenerateOptimalSettlements demoLedger = [⟨2, 1, 30⟩, ⟨3, 1, 30⟩] ∨
      GenerateOptimalSettlements demoLedger = [⟨3, 1, 30⟩, ⟨2, 1, 30⟩]) := by
  constructor
  · norm_num [CalculateUserBalances, balanceFor, contributionSum, expenseSum,
      shareJoinSum, demoLedger, ExpenseStatus.counts]
  · right
    simp only [GenerateOptimalSettlements, generateFromBalances]
    norm_num [CalculateUserBalances, balanceFor, contributionSum, expenseSum,
      shareJoinSum, demoLedger, ExpenseStatus.counts, sortByOwesDesc, sortByOwedDesc,
      List.insertionSort, List.orderedInsert, greedyLoop]

/-- The percentage-split input that breaks exactness: two percentages
that are both valid and sum to exactly 100, but whose computed share
amounts land on rounding half-way points. -/
def pctCxParticipants : List ExpenseParticipant :=
  [{ userID := 1, percentage := .val (5 / 10 ^ 15) },
   { userID := 2, percentage := .val (100 - 5 / 10 ^ 15) }]

/-- Claim C5 (corrected, counterexample): a valid percentage-split
input (both percentages present, parseable, summing to exactly 100) on
which `calculatePercentageSplit` succeeds but the share amounts sum to
`1 + 10⁻¹⁶ ≠ 1`: each `Div` rounds half away from zero at 16 decimal
places, and both quotients sit exactly on a rounding half-way point. -/
theorem c5_counterexample :
    calculatePercentageSplit 1 pctCxParticipants
      = .ok [⟨1, 1 / 10 ^ 16, 5 / 10 ^ 15⟩, ⟨2, 1, 100 - 5 / 10 ^ 15⟩] ∧
    (([⟨1, 1 / 10 ^ 16, 5 / 10 ^ 15⟩, ⟨2, 1, 100 - 5 / 10 ^ 15⟩] : List SplitShare).map
      (·.amount)).sum ≠ 1 := by
  constructor
  · norm_num [calculatePercentageSplit, validateTotal, FieldVal.parsedOr0, decDiv,
      roundHalfAway, divisionPrecision, pctCxParticipants]
  · norm_num

/-- Inversion of a successful `calculateCustomSplit`. -/
theorem customSplit_ok {A : ℚ} {ps : List ExpenseParticipant}
    {shares : List SplitShare}
    (h : calculateCustomSplit A ps = some (.ok shares)) :
    validateTotal (·.amount) "amount required" "invalid amount" ps = .ok A ∧
    shares = ps.map (fun p =>
      ⟨p.userID, p.amount.parsedOr0, decDiv p.amount.parsedOr0 A * 100⟩) := by
  unfold calculateCustomSplit at h
  revert h
  cases hv : validateTotal (·.amount) "amount required" "invalid amount" ps with
  | error e => intro h; simp at h
  | ok t =>
    intro h
    dsimp only at h
    by_cases ht : t ≠ A
    · rw [if_pos ht] at h; simp at h
    · rw [if_neg ht] at h
      push_neg at ht
      by_cases hz : ps ≠ [] ∧ A = 0
      · rw [if_pos hz] at h; simp at h
      · rw [if_neg hz] at h
        simp only [Option.some.injEq, Except.ok.injEq] at h
        exact ⟨by rw [ht], h.symm⟩

/-- Inversion of a successful `calculatePercentageSplit`. -/
theorem percentageSplit_ok {A : ℚ} {ps : List ExpenseParticipant}
    {shares : List SplitShare}
    (h : calculatePercentageSplit A ps = .ok shares) :
    validateTotal (·.percentage) "percentage required" "invalid percentage" ps
      = .ok 100 ∧
    shares = ps.map (fun p =>
      ⟨p.userID, decDiv (A * p.percentage.parsedOr0) 100, p.percentage.parsedOr0⟩) := by
  unfold calculatePercentageSplit at h
  revert h
  cases hv : validateTotal (·.percentage) "percentage required" "invalid percentage" ps with
  | error e => intro h; simp at h
  | ok t =>
    intro h
    dsimp only at h
    by_cases ht : t ≠ 100
    · rw [if_pos ht] at h; simp at h
    · rw [if_neg ht] at h
      push_neg at ht
      simp only [Except.ok.injEq] at h
      exact ⟨by rw [ht], h.symm⟩

/-- Claim C5 (corrected, amended): what the splitter does guarantee.
The custom strategy's share amounts always sum exactly to the expense
amount and the percentage strategy's share percentages always sum
exactly to 100 (both are validated); the percentage strategy's
computed amounts and the custom strategy's back-computed percentages
are rounded at 16 decimal places, and their sums are exact whenever
every quotient is exactly representable at 16 decimal places. -/
theorem c5_amended_splitter_exactness :
    (∀ (A : ℚ) (ps : List ExpenseParticipant) (shares : List SplitShare),
      calculateCustomSplit A ps = some (.ok shares) →
      (shares.map (·.amount)).sum = A) ∧
    (∀ (A : ℚ) (ps : List ExpenseParticipant) (shares : List SplitShare),
      calculatePercentageSplit A ps = .ok shares →
      (shares.map (·.percentage)).sum = 100) ∧
    (∀ (A : ℚ) (ps : List ExpenseParticipant) (shares : List SplitShare),
      calculatePercentageSplit A ps = .ok shares →
      (∀ p ∈ ps, OnGrid (A * p.percentage.parsedOr0 / 100)) →
      (shares.map (·.amount)).sum = A) ∧
    (∀ (A : ℚ) (ps : List ExpenseParticipant) (shares : List SplitShare),
      calculateCustomSplit A ps = some (.ok shares) → A ≠ 0 →
      (∀ p ∈ ps, OnGrid (p.amount.parsedOr0 / A)) →
      (shares.map (·.percentage)).sum = 100) := by
  refine ⟨?_, ?_, ?_, ?_⟩
  · intro A ps shares h
    obtain ⟨hv, rfl⟩ := customSplit_ok h
    rw [List.map_map]
    exact validateTotal_ok_sum _ _ _ _ _ hv
  · intro A ps shares h
    obtain ⟨hv, rfl⟩ := percentageSplit_ok h
    rw [List.map_map]
    exact validateTotal_ok_sum _ _ _ _ _ hv
  · intro A ps shares h hgrid
    obtain ⟨hv, rfl⟩ := percentageSplit_ok h
    rw [List.map_map]
    have hexact : ∀ p ∈ ps, ((·.amount) ∘ fun p : ExpenseParticipant =>
        (⟨p.userID, decDiv (A * p.percentage.parsedOr0) 100,
          p.percentage.parsedOr0⟩ : SplitShare)) p
        = (A / 100) * p.percentage.parsedOr0 := by
      intro p hp
      show decDiv (A * p.percentage.parsedOr0) 100 = (A / 100) * p.percentage.parsedOr0
      rw [decDiv_exact (hgrid p hp)]
      ring
    rw [List.map_congr_left hexact, List.sum_map_mul_left,
      validateTotal_ok_sum _ _ _ _ _ hv]
    ring
  · intro A ps shares h hA hgrid
    obtain ⟨hv, rfl⟩ := customSplit_ok h
    rw [List.map_map]
    have hexact : ∀ p ∈ ps, ((·.percentage) ∘ fun p : ExpenseParticipant =>
        (⟨p.userID, p.amount.parsedOr0, decDiv p.amount.parsedOr0 A * 100⟩ : SplitShare)) p
        = (100 / A) * p.amount.parsedOr0 := by
      intro p hp
      show decDiv p.amount.parsedOr0 A * 100 = (100 / A) * p.amount.parsedOr0
      rw [decDiv_exact (hgrid p hp)]
      ring
    rw [List.map_congr_left hexact, List.sum_map_mul_left,
      validateTotal_ok_sum _ _ _ _ _ hv]
    field_simp

/-- Witness for the amended C5: a 40/60 custom split of 100 sums back
to 100 exactly. -/
theorem c5_amended_witness :
    (([⟨1, 40, 40⟩, ⟨2, 60, 60⟩] : List SplitShare).map (·.amount)).sum = 100 :=
  c5_amended_splitter_exactness.1 100
    [{ userID := 1, amount := .val 40 }, { userID := 2, amount := .val 60 }] _
    (by norm_num [calculateCustomSplit, validateTotal, FieldVal.parsedOr0, decDiv,
      roundHalfAway, divisionPrecision])

/-- The adversarial balance list for C6: total owes (10) equals total
owed (15 + (−5) = 10), but user 3's `owedAmount` is not derived from
its positive `netBalance`. -/
def skewedBalances : List UserBalance :=
  [⟨1, 0, 0, -10, 10, 0⟩, ⟨2, 0, 0, 15, 0, 15⟩, ⟨3, 0, 0, 5, 0, -5⟩]

/-- Claim C6 (corrected, counterexample): the frozen claim quantifies
over every balance list whose total `owesAmount` equals its total
`owedAmount`.  On `skewedBalances` that hypothesis holds, yet creditor
2 (owedAmount 15) receives only 10 in the reduced settlements, because
the loop stops as soon as the debtor list empties. -/
theorem c6_counterexample :
    (skewedBalances.map (·.owesAmount)).sum = (skewedBalances.map (·.owedAmount)).sum ∧
    skewedBalances[1]? = some ⟨2, 0, 0, 15, 0, 15⟩ ∧
    recvBy (generateFromBalances skewedBalances) 2 = 10 ∧
    (10 : ℚ) ≠ 15 := by
  have heval : generateFromBalances skewedBalances = [⟨1, 2, 10⟩] := by
    simp only [generateFromBalances]
    norm_num [skewedBalances, debtorsOf, creditorsOf, sortByOwesDesc, sortByOwedDesc,
      List.insertionSort, List.orderedInsert, greedyLoop]
  refine ⟨by norm_num [skewedBalances], rfl, ?_, by norm_num⟩
  rw [heval]
  norm_num [recvBy]

/-- Claim C6 (corrected, amended): for every balance list whose
`owesAmount`/`owedAmount` fields are derived from `netBalance` the way
`CalculateUserBalances` derives them, with distinct user ids and total
owes equal to total owed, every debtor is the payer of settlements
summing exactly to their `owesAmount` and every creditor the receiver
of settlements summing exactly to their `owedAmount`. -/
theorem c6_amended_totals (bs : List UserBalance)
    (hwf : ∀ b ∈ bs, b.wellFormed)
    (hnd : (bs.map (·.userID)).Nodup)
    (hbal : debtorsOwesTotal bs = creditorsOwedTotal bs) :
    ∀ b ∈ bs,
      (b.netBalance < 0 → sentBy (generateFromBalances bs) b.userID = b.owesAmount) ∧
      (0 < b.netBalance → recvBy (generateFromBalances bs) b.userID = b.owedAmount) := by
  obtain ⟨hsent, hrecv, -, -, -⟩ := generateFromBalances_spec bs hwf hbal
  intro b hb
  constructor
  · intro hneg
    rw [hsent b.userID, owesOf_debtors bs hnd b hb hneg]
  · intro hpos
    rw [hrecv b.userID, owedOf_creditors bs hnd b hb hpos]

/-- Witness for the amended C6 at a one-debtor one-creditor list. -/
theorem c6_amended_witness :
    sentBy (generateFromBalances [⟨1, 0, 0, -5, 5, 0⟩, ⟨2, 0, 0, 5, 0, 5⟩]) 1 = 5 :=
  ((c6_amended_totals [⟨1, 0, 0, -5, 5, 0⟩, ⟨2, 0, 0, 5, 0, 5⟩]
    (by
      intro b hb
      fin_cases hb <;> constructor <;> norm_num [UserBalance.wellFormed])
    (by simp)
    (by norm_num [debtorsOwesTotal, creditorsOwedTotal]))
    ⟨1, 0, 0, -5, 5, 0⟩ (by simp)).1 (by norm_num)

/-- The balance list refuting C7's upper bound: two debtors owing 5
each, one creditor owed 10. -/
def twoDebtorBalances : List UserBalance :=
  [⟨1, 0, 0, -5, 5, 0⟩, ⟨2, 0, 0, -5, 5, 0⟩, ⟨3, 0, 0, 10, 0, 10⟩]

/-- Claim C7 (corrected, counterexample): with 2 debtors and 1
creditor the reducer emits 2 settlements, but the claim's upper bound
is `min(D, C) = 1`; the stated bounds are inverted. -/
theorem c7_counterexample :
    (debtorsOf twoDebtorBalances).length = 2 ∧
    (creditorsOf twoDebtorBalances).length = 1 ∧
    (generateFromBalances twoDebtorBalances).length = 2 ∧
    ¬ ((generateFromBalances twoDebtorBalances).length ≤ min 2 1) := by
  have heval : generateFromBalances twoDebtorBalances = [⟨2, 3, 5⟩, ⟨1, 3, 5⟩] := by
    simp only [generateFromBalances]
    norm_num [twoDebtorBalances, debtorsOf, creditorsOf, sortByOwesDesc, sortByOwedDesc,
      List.insertionSort, List.orderedInsert, greedyLoop]
  refine ⟨by norm_num [debtorsOf, twoDebtorBalances],
    by norm_num [creditorsOf, twoDebtorBalances], ?_, ?_⟩
  · rw [heval]; rfl
  · rw [heval]; norm_num

/-- Claim C7 (corrected, amended): for every balance list whose
owes/owed fields are derived from `netBalance` and whose total owes
equals total owed, the reducer emits at least `max(D, C)` settlements
(hence at least `max(D, C) − 1`) and at most `D + C − 1` settlements,
where `D` and `C` are the debtor and creditor counts. -/
theorem c7_amended_bounds (bs : List UserBalance)
    (hwf : ∀ b ∈ bs, b.wellFormed)
    (hbal : debtorsOwesTotal bs = creditorsOwedTotal bs) :
    max (debtorsOf bs).length (creditorsOf bs).length
        ≤ (generateFromBalances bs).length ∧
    (generateFromBalances bs).length
        ≤ (debtorsOf bs).length + (creditorsOf bs).length - 1 := by
  obtain ⟨-, -, h1, h2, h3⟩ := generateFromBalances_spec bs hwf hbal
  exact ⟨max_le h1 h2, h3⟩

/-- Witness for the amended C7 at a one-debtor one-creditor list. -/
theorem c7_amended_witness :
    max (debtorsOf [⟨1, 0, 0, -5, 5, 0⟩, ⟨2, 0, 0, 5, 0, 5⟩]).length
        (creditorsOf [⟨1, 0, 0, -5, 5, 0⟩, ⟨2, 0, 0, 5, 0, 5⟩]).length
      ≤ (generateFromBalances [⟨1, 0, 0, -5, 5, 0⟩, ⟨2, 0, 0, 5, 0, 5⟩]).length ∧
    (generateFromBalances [⟨1, 0, 0, -5, 5, 0⟩, ⟨2, 0, 0, 5, 0, 5⟩]).length
      ≤ (debtorsOf [⟨1, 0, 0, -5, 5, 0⟩, ⟨2, 0, 0, 5, 0, 5⟩]).length
        + (creditorsOf [⟨1, 0, 0, -5, 5, 0⟩, ⟨2, 0, 0, 5, 0, 5⟩]).length - 1 :=
  c7_amended_bounds [⟨1, 0, 0, -5, 5, 0⟩, ⟨2, 0, 0, 5, 0, 5⟩]
    (by
      intro b hb
      fin_cases hb <;> constructor <;> norm_num [UserBalance.wellFormed])
    (by norm_num [debtorsOwesTotal, creditorsOwedTotal])

/-- Witness for the amended C3 at a concrete closed ledger. -/
theorem c3_amended_conservation_witness :
    debtorsOwesTotal (CalculateUserBalances closedLedger)
      = creditorsOwedTotal (CalculateUserBalances closedLedger) :=
  c3_amended_conservation closedLedger
    (by simp [closedLedger])
    rfl
    (by
      intro e he
      simp only [closedLedger, List.mem_singleton] at he
      subst he
      intro
      simp [closedLedger])
    (by
      intro s hs
      simp only [closedLedger, List.mem_cons, List.mem_singleton] at hs
      rcases hs with rfl | rfl | h
      · simp [closedLedger]
      · simp [closedLedger]
      · cases h)
    (by
      intro e he
      simp only [closedLedger, List.mem_singleton] at he
      subst he
      norm_num [closedLedger])

/-- Claim C8 (confirmed): `CreateCustomSettlement` succeeds exactly
when both users are participants, the amount is strictly positive, the
from-user's netBalance (as computed by `CalculateUserBalances`) is
negative with amount at most their `owesAmount`, and the to-user's
netBalance is positive with amount at most their `owedAmount`; in
every other case it fails with the validation error naming the first
violated condition (in the source's check order) and the settlements
table is untouched.  The balance lookup inside the validation is
modelled from the spec (per-iteration loop variables), `go.mod` being
absent from the sources; see `ValidateSettlement`. -/
theorem c8_createCustom_validation (L : Ledger) (eventID fromU toU : ℕ)
    (amount : ℚ) (freshID : ℕ) (db : List Settlement) :
    ((∃ s, (CreateCustomSettlement L eventID fromU toU amount freshID db).1 = .ok s) ↔
      (fromU ∈ L.participants ∧ toU ∈ L.participants ∧ 0 < amount ∧
        (balanceFor L fromU).netBalance < 0 ∧
        amount ≤ (balanceFor L fromU).owesAmount ∧
        0 < (balanceFor L toU).netBalance ∧
        amount ≤ (balanceFor L toU).owedAmount)) ∧
    (∀ e, (CreateCustomSettlement L eventID fromU toU amount freshID db).1 = .error e →
      (CreateCustomSettlement L eventID fromU toU amount freshID db).2 = db) ∧
    (fromU ∉ L.participants →
      (CreateCustomSettlement L eventID fromU toU amount freshID db).1
        = .error "from user is not a participant in this event") ∧
    (fromU ∈ L.participants → toU ∉ L.participants →
      (CreateCustomSettlement L eventID fromU toU amount freshID db).1
        = .error "to user is not a participant in this event") ∧
    (fromU ∈ L.participants → toU ∈ L.participants → amount ≤ 0 →
      (CreateCustomSettlement L eventID fromU toU amount freshID db).1
        = .error "settlement amount must be positive") ∧
    (fromU ∈ L.participants → toU ∈ L.participants → 0 < amount →
      ¬ (balanceFor L fromU).netBalance < 0 →
      (CreateCustomSettlement L eventID fromU toU amount freshID db).1
        = .error "from user does not owe money") ∧
    (fromU ∈ L.participants → toU ∈ L.participants → 0 < amount →
      (balanceFor L fromU).netBalance < 0 → ¬ 0 < (balanceFor L toU).netBalance →
      (CreateCustomSettlement L eventID fromU toU amount freshID db).1
        = .error "to user is not owed money") ∧
    (fromU ∈ L.participants → toU ∈ L.participants → 0 < amount →
      (balanceFor L fromU).netBalance < 0 → 0 < (balanceFor L toU).netBalance →
      (balanceFor L fromU).owesAmount < amount →
      (CreateCustomSettlement L eventID fromU toU amount freshID db).1
        = .error "settlement amount exceeds what from user owes") ∧
    (fromU ∈ L.participants → toU ∈ L.participants → 0 < amount →
      (balanceFor L fromU).netBalance < 0 → 0 < (balanceFor L toU).netBalance →
      amount ≤ (balanceFor L fromU).owesAmount →
      (balanceFor L toU).owedAmount < amount →
      (CreateCustomSettlement L eventID fromU toU amount freshID db).1
        = .error "settlement amount exceeds what to user is owed") := by
  refine ⟨(createCustom_ok_iff L eventID fromU toU amount freshID db).trans
      (validate_iff L fromU toU amount),
    createCustom_error_keeps_db L eventID fromU toU amount freshID db,
    ?_, ?_, ?_, ?_, ?_, ?_, ?_⟩
  · intro h
    exact createCustom_error_lift L eventID fromU toU amount freshID db _
      (validate_error_from_not_participant L fromU toU amount h)
  · intro h1 h2
    exact createCustom_error_lift L eventID fromU toU amount freshID db _
      (validate_error_to_not_participant L fromU toU amount h1 h2)
  · intro h1 h2 h3
    exact createCustom_error_lift L eventID fromU toU amount freshID db _
      (validate_error_nonpositive L fromU toU amount h1 h2 h3)
  · intro h1 h2 h3 h4
    exact createCustom_error_lift L eventID fromU toU amount freshID db _
      (validate_error_from_not_debtor L fromU toU amount h1 h2 h3 h4)
  · intro h1 h2 h3 h4 h5
    exact createCustom_error_lift L eventID fromU toU amount freshID db _
      (validate_error_to_not_creditor L fromU toU amount h1 h2 h3 h4 h5)
  · intro h1 h2 h3 h4 h5 h6
    exact createCustom_error_lift L eventID fromU toU amount freshID db _
      (validate_error_exceeds_owes L fromU toU amount h1 h2 h3 h4 h5 h6)
  · intro h1 h2 h3 h4 h5 h6 h7
    exact createCustom_error_lift L eventID fromU toU amount freshID db _
      (validate_error_exceeds_owed L fromU toU amount h1 h2 h3 h4 h5 h6 h7)

/-- Witness for C8: on `closedLedger` user 2 owes 5 and user 1 is owed
5, so a custom settlement of 5 from user 2 to user 1 is created. -/
theorem c8_createCustom_witness :
    ∃ s, (CreateCustomSettlement closedLedger 7 2 1 5 41 []).1 = .ok s :=
  (c8_createCustom_validation closedLedger 7 2 1 5 41 []).1.mpr
    ⟨by simp [closedLedger], by simp [closedLedger], by norm_num,
      by norm_num [balanceFor, contributionSum, expenseSum, shareJoinSum, closedLedger, ExpenseStatus.counts],
      by norm_num [balanceFor, contributionSum, expenseSum, shareJoinSum, closedLedger, ExpenseStatus.counts],
      by norm_num [balanceFor, contributionSum, expenseSum, shareJoinSum, closedLedger, ExpenseStatus.counts],
      by norm_num [balanceFor, contributionSum, expenseSum, shareJoinSum, closedLedger, ExpenseStatus.counts]⟩

/-- Claim C9 (confirmed): `MarkSettlementCompleted` fails with the
not-found error when no row has the id, fails with the invalid-state
error when the row is not pending (leaving the table untouched, as the
update is never issued), and on success marks exactly that row
completed with the payment reference and the completion timestamp,
keeping every other row; a second call on the same id then fails, so
`settledAt` is written exactly once. -/
theorem c9_markCompleted_lifecycle (db : List Settlement)
    (hids : (db.map (·.id)).Nodup) (sid : ℕ) (ref ref2 : String) (now now2 : ℕ) :
    ((∀ s ∈ db, s.id ≠ sid) →
      MarkSettlementCompleted db sid ref now = .error "settlement not found") ∧
    (∀ s ∈ db, s.id = sid → s.status ≠ "pending" →
      MarkSettlementCompleted db sid ref now = .error "settlement is not pending") ∧
    (∀ s ∈ db, s.id = sid → s.status = "pending" →
      ∃ db', MarkSettlementCompleted db sid ref now = .ok db' ∧
        ({ s with status := "completed", paymentReference := ref, settledAt := some now } : Settlement) ∈ db' ∧
        (∀ t ∈ db, t.id ≠ sid → t ∈ db') ∧
        MarkSettlementCompleted db' sid ref2 now2
          = .error "settlement is not pending") := by
  refine ⟨?_, ?_, ?_⟩
  · intro hnone
    have hfind : db.find? (fun s => s.id == sid) = none := by
      rw [List.find?_eq_none]
      intro s hs
      simp [hnone s hs]
    unfold MarkSettlementCompleted
    rw [hfind]
  · intro s hs hid hstatus
    have hfind : db.find? (fun t => t.id == sid) = some s := by
      rw [← hid]
      exact find?_settlement_nodup db hids s hs
    unfold MarkSettlementCompleted
    rw [hfind]
    dsimp only
    rw [if_pos hstatus]
  · intro s hs hid hstatus
    have hfind : db.find? (fun t => t.id == sid) = some s := by
      rw [← hid]
      exact find?_settlement_nodup db hids s hs
    have hupd : MarkSettlementCompleted db sid ref now
        = .ok (db.map fun t => if t.id == sid then
            { t with status := "completed", paymentReference := ref, settledAt := some now } else t) := by
      unfold MarkSettlementCompleted
      rw [hfind]
      dsimp only
      rw [if_neg (by simp [hstatus])]
    refine ⟨_, hupd, ?_, ?_, ?_⟩
    · have : ({ s with status := "completed", paymentReference := ref, settledAt := some now } : Settlement)
          = (fun t => if t.id == sid then
              { t with status := "completed", paymentReference := ref, settledAt := some now } else t) s := by
        simp [hid]
      rw [this]
      exact List.mem_map_of_mem _ hs
    · intro t ht hne
      have : (fun t => if t.id == sid then
          { t with status := "completed", paymentReference := ref, settledAt := some now } else t) t = t := by
        simp [hne]
      rw [← this]
      exact List.mem_map_of_mem _ ht
    · set f : Settlement → Settlement := fun t => if t.id == sid then
        { t with status := "completed", paymentReference := ref, settledAt := some now } else t with hf
      have hfid : ∀ t : Settlement, (f t).id = t.id := by
        intro t
        rw [hf]
        by_cases h : t.id == sid <;> simp [h]
      have hids' : ((db.map f).map (·.id)).Nodup := by
        rw [List.map_map]
        have : ((·.id) ∘ f) = (·.id : Settlement → ℕ) := funext fun t => hfid t
        rw [this]
        exact hids
      have hsmem : f s ∈ db.map f := List.mem_map_of_mem f hs
      have hfs : f s = { s with status := "completed", paymentReference := ref, settledAt := some now } := by
        rw [hf]
        simp [hid]
      have hfind2 : (db.map f).find? (fun t => t.id == sid) = some (f s) := by
        have := find?_settlement_nodup (db.map f) hids' (f s) hsmem
        rwa [hfid s, hid] at this
      unfold MarkSettlementCompleted
      rw [hfind2]
      dsimp only
      rw [if_pos (by rw [hfs]; simp)]

/-- Witness for C9: completing the demo pending settlement succeeds
once and the repeated call fails with the invalid-state error. -/
theorem c9_markCompleted_witness :
    ∃ db', MarkSettlementCompleted [demoPending] 1 "wire-42" 5 = .ok db' ∧
      ({ demoPending with status := "completed", paymentReference := "wire-42", settledAt := some 5 } : Settlement) ∈ db' ∧
      (∀ t ∈ [demoPending], t.id ≠ 1 → t ∈ db') ∧
      MarkSettlementCompleted db' 1 "again" 6 = .error "settlement is not pending" :=
  (c9_markCompleted_lifecycle [demoPending] (by simp) 1 "wire-42" "again" 5 6).2.2
    demoPending (List.mem_singleton.mpr rfl) rfl rfl

/-- Claim C10 (confirmed): `calculateWeightedSplit` never validates
the weights beyond parseability; on every non-empty participant list
whose weights are all present and parseable but sum to zero, the first
`weight.Div(totalWeight)` call divides by zero and panics (reified as
`none`) instead of returning an error value. -/
theorem c10_weighted_zero_total_panics (A : ℚ) (ps : List ExpenseParticipant)
    (hne : ps ≠ [])
    (hall : ∀ p ∈ ps, ∃ q, p.weight = .val q)
    (hzero : (ps.map (fun p => p.weight.parsedOr0)).sum = 0) :
    calculateWeightedSplit A ps = none := by
  unfold calculateWeightedSplit
  rw [validateTotal_ok_of_all_val (·.weight) "weight required" "invalid weight" ps hall]
  dsimp only
  rw [if_pos ⟨hne, hzero⟩]

/-- Witness for C10: two participants, both with weight "0". -/
theorem c10_weighted_witness :
    calculateWeightedSplit 50
      [{ userID := 1, weight := .val 0 }, { userID := 2, weight := .val 0 }] = none :=
  c10_weighted_zero_total_panics 50 _
    (by simp)
    (by
      intro p hp
      fin_cases hp <;> exact ⟨0, rfl⟩)
    (by norm_num [FieldVal.parsedOr0])

end ExpenseTracker
